import Mathlib

/-!
Verification of the dailydarts core against its specification.

The development shallowly embeds the scoring engine
(src/client/splash/src/scoring.js), the aim-disc controller
(src/client/splash/src/script_helpers.js), the round bookkeeping
(src/client/splash/src/script.js) and the leaderboard store
(src/server/leaderboard.ts).

Modelling conventions:
- JavaScript numbers appearing in geometric code (scoring, aim disc) are
  modelled as real numbers; numbers appearing in discrete bookkeeping code
  (round state, leaderboard) are modelled as rationals so that concrete
  instances evaluate by kernel computation.
- Fields that JavaScript code reads defensively (typeof checks, optional
  chaining, nullish coalescing) are modelled as Option values; a value of
  none stands for an absent, non-numeric or non-finite field.
- Fallible classification never throws in the source; all embedded
  operations are total functions.
-/

namespace DailyDarts

/-! ## Scoring engine (scoring.js) -/

/-- Ring classification outcomes, as the string constants used by
ringFromRadiusRatio in scoring.js. -/
inductive Ring where
  | MISS
  | DBULL
  | SBULL
  | DOUBLE
  | TRIPLE
  | SINGLE
deriving DecidableEq

/-- Result of ringFromRadiusRatio: the ring string and the multiplier. -/
structure RingInfo where
  ring : Ring
  mult : ℕ
deriving DecidableEq

/-- The ringRatios object of the scoring config (normalized radii). -/
structure RingRatios where
  outer : ℝ
  doubleInner : ℝ
  doubleOuter : ℝ
  tripleInner : ℝ
  tripleOuter : ℝ
  bullOuter : ℝ
  dbullOuter : ℝ

/-- The scoring config consumed by scoring.js (built in board.js).
Option fields model values the code reads behind typeof checks or
optional chaining: none stands for absent / non-numeric / non-finite. -/
structure ScoringConfig where
  segments : ℕ
  wedgeAngle : ℝ
  startAngle : ℝ
  direction : String
  angleOffset : Option ℝ
  numbers : List ℤ
  ringRatios : RingRatios
  ringEpsN : Option ℝ
  pointsBull : Option ℝ
  pointsDbull : Option ℝ
  boardRadius : Option ℝ

/-- getRingEpsN from scoring.js: the configured ringEpsN when it is a
finite number at least 0, otherwise the default tolerance 0.01. -/
noncomputable def getRingEpsN (cfg : ScoringConfig) : ℝ :=
  match cfg.ringEpsN with
  | some v => if 0 ≤ v then v else 0.01
  | none => 0.01

/-- The body of ringFromRadiusRatio from scoring.js with the epsilon made
explicit (the source binds eps once at the top of the function and uses it
in every band comparison). First match wins. -/
noncomputable def ringFromRadiusRatioWithEps (rNorm : ℝ) (rr : RingRatios) (eps : ℝ) :
    RingInfo :=
  if rNorm > rr.outer + eps then ⟨Ring.MISS, 0⟩
  else if rNorm ≤ rr.dbullOuter + eps then ⟨Ring.DBULL, 0⟩
  else if rNorm ≤ rr.bullOuter + eps then ⟨Ring.SBULL, 0⟩
  else if rr.doubleInner - eps ≤ rNorm ∧ rNorm ≤ rr.doubleOuter + eps then ⟨Ring.DOUBLE, 2⟩
  else if rr.tripleInner - eps ≤ rNorm ∧ rNorm ≤ rr.tripleOuter + eps then ⟨Ring.TRIPLE, 3⟩
  else ⟨Ring.SINGLE, 1⟩

/-- ringFromRadiusRatio from scoring.js. -/
noncomputable def ringFromRadiusRatioFn (rNorm : ℝ) (cfg : ScoringConfig) : RingInfo :=
  ringFromRadiusRatioWithEps rNorm cfg.ringRatios (getRingEpsN cfg)

/-- Spec-side restatement of the ring precedence chain, written from the
wording of the specification (fixed precedence order MISS, DBULL, SBULL,
DOUBLE, TRIPLE, SINGLE with first match winning), to be compared with the
definition taken from the source. -/
noncomputable def ringOrderSpec (rNorm : ℝ) (cfg : ScoringConfig) : RingInfo :=
  let eps := getRingEpsN cfg
  if rNorm > cfg.ringRatios.outer + eps then ⟨Ring.MISS, 0⟩
  else if rNorm ≤ cfg.ringRatios.dbullOuter + eps then ⟨Ring.DBULL, 0⟩
  else if rNorm ≤ cfg.ringRatios.bullOuter + eps then ⟨Ring.SBULL, 0⟩
  else if cfg.ringRatios.doubleInner - eps ≤ rNorm ∧ rNorm ≤ cfg.ringRatios.doubleOuter + eps then
    ⟨Ring.DOUBLE, 2⟩
  else if cfg.ringRatios.tripleInner - eps ≤ rNorm ∧ rNorm ≤ cfg.ringRatios.tripleOuter + eps then
    ⟨Ring.TRIPLE, 3⟩
  else ⟨Ring.SINGLE, 1⟩

/-- JavaScript truncation toward zero (Math.trunc), used to model the
JavaScript remainder operator. -/
noncomputable def jsTrunc (q : ℝ) : ℤ :=
  if 0 ≤ q then ⌊q⌋ else ⌈q⌉

/-- The JavaScript remainder a % b (sign of the dividend). -/
noncomputable def jsRem (a b : ℝ) : ℝ :=
  a - b * jsTrunc (a / b)

/-- normAngle0To2Pi from scoring.js: reduce an angle to the interval
from 0 (inclusive) to two pi (exclusive). -/
noncomputable def normAngle0To2Pi (a : ℝ) : ℝ :=
  let x := jsRem a (Real.pi * 2)
  if x < 0 then x + Real.pi * 2 else x

/-- The defensive read of scoringConfig.angleOffset in wedgeIndexFromAngle:
a number when present, otherwise 0. -/
def resolvedAngleOffset (cfg : ScoringConfig) : ℝ :=
  match cfg.angleOffset with
  | some v => v
  | none => 0

/-- wedgeIndexFromAngle from scoring.js: distance from the wedge-0 center
angle in the configured direction, rounded to the nearest wedge center.
The source treats every direction string other than "cw" as "ccw".
Math.floor is the real floor and the JavaScript % on the resulting
integers is truncated remainder. -/
noncomputable def wedgeIndexFromAngle (theta : ℝ) (cfg : ScoringConfig) : ℤ :=
  let wedgeAngle := cfg.wedgeAngle
  let startAngleCenter := cfg.startAngle
  let a := normAngle0To2Pi (theta + resolvedAngleOffset cfg)
  let delta :=
    if cfg.direction = "cw" then normAngle0To2Pi (startAngleCenter - a)
    else normAngle0To2Pi (a - startAngleCenter)
  Int.tmod ⌊(delta + wedgeAngle / 2) / wedgeAngle⌋ 20

/-- Math.atan2 (y, x): the argument of the complex number x + y i,
in the interval from minus pi to pi. -/
noncomputable def atan2 (y x : ℝ) : ℝ :=
  Complex.arg ⟨x, y⟩

/-- The ScoreResult object returned by scoreFromBoardXY. -/
structure ScoreResult where
  points : ℝ
  label : String
  wedge : Option ℤ
  wedgeIndex : Option ℤ
  mult : ℕ
  ring : Ring
  angle : ℝ
  radius : ℝ
  rNorm : ℝ

/-- The MISS result object returned by the defensive branches of
scoreFromBoardXY. -/
def missResult (radius rNorm : ℝ) : ScoreResult :=
  ⟨0, "MISS", none, none, 0, Ring.MISS, 0, radius, rNorm⟩

/-- The rNorm computation of scoreFromBoardXY: r divided by boardRadius
when boardRadius is a finite positive number, otherwise r unchanged. -/
noncomputable def rNormOf (x y : ℝ) (cfg : ScoringConfig) : ℝ :=
  let r := Real.sqrt (x * x + y * y)
  match cfg.boardRadius with
  | some b => if 0 < b then r / b else r
  | none => r

/-- JavaScript array indexing with the nullish fallback used in
scoreFromBoardXY: numbers[idx] when idx is in range, otherwise 0. -/
def jsIndex (l : List ℤ) (i : ℤ) : ℤ :=
  if i < 0 then 0 else l.getD i.toNat 0

/-- The defensive read Number(scoringConfig.points?.dbull ?? 50). -/
def resolvedDbullPoints (cfg : ScoringConfig) : ℝ :=
  match cfg.pointsDbull with
  | some v => v
  | none => 50

/-- The defensive read Number(scoringConfig.points?.bull ?? 25). -/
def resolvedBullPoints (cfg : ScoringConfig) : ℝ :=
  match cfg.pointsBull with
  | some v => v
  | none => 25

/-- scoreFromBoardXY from scoring.js. In this typed embedding the only
representable validation failure is a numbers array whose length is not 20;
the remaining defensive checks of the source (missing config object,
missing ringRatios, non-numeric wedgeAngle or startAngle) guard states
that the typed config cannot express. -/
noncomputable def scoreFromBoardXY (x y : ℝ) (cfg : ScoringConfig) : ScoreResult :=
  if cfg.numbers.length ≠ 20 then missResult 0 0
  else
    let r := Real.sqrt (x * x + y * y)
    let rNorm := rNormOf x y cfg
    let ringInfo := ringFromRadiusRatioFn rNorm cfg
    match ringInfo.ring with
    | Ring.DBULL =>
        ⟨resolvedDbullPoints cfg, "DBULL", none, none, 0, Ring.DBULL, 0, r, rNorm⟩
    | Ring.SBULL =>
        ⟨resolvedBullPoints cfg, "SBULL", none, none, 0, Ring.SBULL, 0, r, rNorm⟩
    | Ring.MISS =>
        ⟨0, "MISS", none, none, 0, Ring.MISS, 0, r, rNorm⟩
    | _ =>
        let theta := atan2 y x
        let thetaNorm := normAngle0To2Pi theta
        let idx := wedgeIndexFromAngle thetaNorm cfg
        let wedgeValue := jsIndex cfg.numbers idx
        let mult := ringInfo.mult
        let points := (wedgeValue : ℝ) * (mult : ℝ)
        let labelPrefix := if mult = 2 then "D" else if mult = 3 then "T" else "S"
        ⟨points, labelPrefix ++ toString wedgeValue, some wedgeValue, some idx, mult,
          ringInfo.ring, thetaNorm, r, rNorm⟩

/-- The scoring config built by createDartboard in board.js with default
options: startAngle is the top of the board, direction "cw", the canonical
clockwise number order, and ring ratios derived from the painted radii
(legacy radii times 512 / 480, normalized by the 512 pixel outer radius). -/
noncomputable def defaultScoringConfig : ScoringConfig where
  segments := 20
  wedgeAngle := Real.pi * 2 / 20
  startAngle := Real.pi / 2
  direction := "cw"
  angleOffset := some 0
  numbers := [20, 1, 18, 4, 13, 6, 10, 15, 2, 17, 3, 19, 7, 16, 8, 11, 14, 9, 12, 5]
  ringRatios :=
    { outer := 1
      doubleInner := 445 * (512 / 480) / 512
      doubleOuter := 480 * (512 / 480) / 512
      tripleInner := 275 * (512 / 480) / 512
      tripleOuter := 310 * (512 / 480) / 512
      bullOuter := 70 * (512 / 480) / 512
      dbullOuter := 32 * (512 / 480) / 512 }
  ringEpsN := some 0.010
  pointsBull := some 25
  pointsDbull := some 50
  boardRadius := some 2.05

/-- A config whose ringEpsN field holds a negative number, for exercising
the default-tolerance fallback. -/
noncomputable def negEpsConfig : ScoringConfig :=
  { defaultScoringConfig with ringEpsN := some (-1) }

/-! ## Aim disc controller (script_helpers.js, createAimDisc) -/

/-- The options and board geometry captured by the createAimDisc closure. -/
structure AimOpts where
  boardRadius : ℝ
  maxRadius : ℝ
  minRadius : ℝ
  shrinkTime : ℝ

/-- The mutable state object of the aim disc. -/
structure AimState where
  enabled : Bool
  time : ℝ
  holding : Bool
  holdTime : ℝ
  centerX : ℝ
  centerY : ℝ
  radius : ℝ

/-- The object returned by releaseAndSampleHit. -/
structure HitSample where
  centerX : ℝ
  centerY : ℝ
  radius : ℝ
  hitX : ℝ
  hitY : ℝ

/-- beginHold from script_helpers.js: unconditionally starts a hold
(sets holding, zeroes holdTime, restores the radius to maxRadius).
The mesh scale update has no observable state. -/
def beginHold (opts : AimOpts) (st : AimState) : AimState :=
  { st with holding := true, holdTime := 0, radius := opts.maxRadius }

/-- cancelHold from script_helpers.js. -/
def cancelHold (opts : AimOpts) (st : AimState) : AimState :=
  { st with holding := false, holdTime := 0, radius := opts.maxRadius }

/-- releaseAndSampleHit from script_helpers.js. The two Math.random draws
are passed explicitly as u1 and u2: the sampled angle is u1 times two pi
and the sampled radius is the square root of u2 times the current (shrunk)
radius. Returns the sample object and the reset state. -/
noncomputable def releaseAndSampleHit (opts : AimOpts) (st : AimState) (u1 u2 : ℝ) :
    HitSample × AimState :=
  let finalRadius := st.radius
  let angle := u1 * Real.pi * 2
  let r := Real.sqrt u2 * finalRadius
  let hitX := st.centerX + Real.cos angle * r
  let hitY := st.centerY + Real.sin angle * r
  (⟨st.centerX, st.centerY, finalRadius, hitX, hitY⟩,
    { st with holding := false, holdTime := 0, radius := opts.maxRadius })

/-- The aim-disc options used by script.js (maxRadius 0.75, minRadius 0.06,
shrinkTime 1.25) on the default board of radius 2.05. -/
noncomputable def defaultAimOpts : AimOpts :=
  ⟨2.05, 0.75, 0.06, 1.25⟩

/-- A mid-hold aim state: holding with a partially shrunk radius. -/
noncomputable def midHoldState : AimState :=
  ⟨true, 1, true, 0.5, 0, 0, 0.3⟩

/-! ## Round bookkeeping (script.js) -/

/-- The fields of a score result that registerThrowScore reads. The source
reads them defensively (optional chaining with typeof checks), so every
field is an Option; none stands for a missing or wrongly typed field. -/
structure ThrowInput where
  points : Option ℚ
  label : Option String
  ring : Option String
  mult : Option ℚ
  wedge : Option ℚ
deriving DecidableEq

/-- An entry of throwHistory. -/
structure ThrowRecord where
  label : String
  points : ℚ
  ring : Option String
  mult : Option ℚ
  wedge : Option ℚ
deriving DecidableEq

/-- The module-level round state of script.js. -/
structure RoundState where
  roundActive : Bool
  dartsThrown : ℕ
  totalScore : ℚ
  throwHistory : List ThrowRecord
deriving DecidableEq

/-- MAX_DARTS_PER_ROUND from script.js. -/
def maxDartsPerRound : ℕ := 10

/-- resetRound from script.js: a hard reset from any state. The HUD calls
have no observable round state. -/
def resetRound (_st : RoundState) : RoundState :=
  ⟨true, 0, 0, []⟩

/-- endRound from script.js: clears roundActive. The aim-disc and HUD
calls have no observable round state. -/
def endRound (st : RoundState) : RoundState :=
  { st with roundActive := false }

/-- registerThrowScore from script.js: increments dartsThrown, adds the
points (0 when the field is not a number), appends a history record, and
ends the round when dartsThrown has reached MAX_DARTS_PER_ROUND. -/
def registerThrowScore (st : RoundState) (sr : ThrowInput) : RoundState :=
  let pts := match sr.points with | some p => p | none => 0
  let lbl := match sr.label with | some s => s | none => "MISS"
  let st1 : RoundState :=
    { st with
      dartsThrown := st.dartsThrown + 1
      totalScore := st.totalScore + pts
      throwHistory := st.throwHistory ++ [⟨lbl, pts, sr.ring, sr.mult, sr.wedge⟩] }
  if maxDartsPerRound ≤ st1.dartsThrown then endRound st1 else st1

/-- The throw-registration operation as the program invokes it: the only
caller of registerThrowScore is onAimPointerUp in script.js, which returns
early when roundActive is false, so no throw is registered once the round
is complete. -/
def registerThrowViaPointerUp (st : RoundState) (sr : ThrowInput) : RoundState :=
  if st.roundActive then registerThrowScore st sr else st

/-- Round states reachable in the running program: resetRound from any
state, followed by any number of registration attempts through the
pointer-up path. -/
inductive ReachableRound : RoundState → Prop where
  | reset (st : RoundState) : ReachableRound (resetRound st)
  | step (st : RoundState) (sr : ThrowInput) :
      ReachableRound st → ReachableRound (registerThrowViaPointerUp st sr)

/-- A sample throw input worth 5 points. -/
def sampleThrow : ThrowInput :=
  ⟨some 5, some "S5", some "SINGLE", some 1, some 5⟩

/-- The round state used to instantiate the round-completion theorem. -/
def initialRoundState : RoundState :=
  ⟨false, 0, 0, []⟩

/-! ## Leaderboard store (leaderboard.ts) -/

/-- The stored per-user record (score, submittedAt, metadata). Scores are
the submitted dart totals and timestamps are epoch milliseconds from
Date.now(); both are integral JavaScript numbers, modelled as integers. -/
structure StoredLeaderboardRecord where
  score : ℤ
  submittedAt : ℤ
  metadata : List (String × String)
deriving DecidableEq

/-- The slice of the redis store touched by one post: the metadata hash
(field values are decode results of the stored JSON: none models a value
that fails to parse) and the sorted set of composite scores. -/
structure LeaderboardState where
  meta : List (String × Option StoredLeaderboardRecord)
  zset : List (String × ℤ)
deriving DecidableEq

/-- Association-list lookup of a hash field or sorted-set member. -/
def lookupField {α : Type} : List (String × α) → String → Option α
  | [], _ => none
  | (k2, v) :: rest, k => if k2 = k then some v else lookupField rest k

/-- Association-list update: replace the binding when the key is present,
append it otherwise (hSet and zAdd both overwrite per key). -/
def updateField {α : Type} : List (String × α) → String → α → List (String × α)
  | [], k, v => [(k, v)]
  | (k2, v2) :: rest, k, v =>
      if k2 = k then (k, v) :: rest else (k2, v2) :: updateField rest k v

/-- decodeMetadata (await redis.hGet (metaKey, userId)) from leaderboard.ts:
null both when the field is absent and when its value fails to decode. -/
def hGetDecoded (st : LeaderboardState) (userId : String) :
    Option StoredLeaderboardRecord :=
  match lookupField st.meta userId with
  | some v => v
  | none => none

/-- SCORE_MULTIPLIER from leaderboard.ts. -/
def scoreMultiplier : ℤ := 1000000000000

/-- toCompositeScore from leaderboard.ts. -/
def toCompositeScore (score submittedAt : ℤ) : ℤ :=
  score * scoreMultiplier - submittedAt

/-- The write path of upsertScore (the code after the early return):
builds the new record, stores its encoding in the metadata hash and its
composite score in the sorted set. -/
def upsertWriteRecord (st : LeaderboardState) (userId : String) (score now : ℤ)
    (metadata : List (String × String)) : StoredLeaderboardRecord × LeaderboardState :=
  let record : StoredLeaderboardRecord := ⟨score, now, metadata⟩
  (record,
    ⟨updateField st.meta userId (some record),
      updateField st.zset userId (toCompositeScore score now)⟩)

/-- upsertScore from leaderboard.ts. Date.now() is passed explicitly as
now. When an existing record decodes and its score is at least the new
score, the call returns the existing record and performs no write. -/
def upsertScore (st : LeaderboardState) (userId : String) (score now : ℤ)
    (metadata : List (String × String)) : StoredLeaderboardRecord × LeaderboardState :=
  match hGetDecoded st userId with
  | some existing =>
      if score ≤ existing.score then (existing, st)
      else upsertWriteRecord st userId score now metadata
  | none => upsertWriteRecord st userId score now metadata

/-- Lexicographic order on character lists by code point, modelling the
byte-lexicographic member order redis applies to sorted-set ties (the two
agree on the ASCII user ids this store uses). -/
def charListLt : List Char → List Char → Bool
  | _, [] => false
  | [], _ :: _ => true
  | c :: cs, d :: ds =>
      if c.toNat < d.toNat then true
      else if d.toNat < c.toNat then false
      else charListLt cs ds

/-- Lexicographic order on member strings. -/
def memberLt (a b : String) : Bool :=
  charListLt a.data b.data

/-- redis.zRank: the 0-based ascending position of a member in the sorted
set, ordering by score and breaking ties by the lexicographic order of the
member strings; none when the member is absent. -/
def zRank (st : LeaderboardState) (userId : String) : Option ℕ :=
  match lookupField st.zset userId with
  | none => none
  | some s =>
      some (st.zset.filter
        (fun p => decide (p.2 < s) || (decide (p.2 = s) && memberLt p.1 userId))).length

/-- redis.zCard: the cardinality of the sorted set. -/
def zCard (st : LeaderboardState) : ℕ :=
  st.zset.length

/-- getRankForUser from leaderboard.ts: null when the user has no entry,
otherwise the cardinality minus the ascending rank. -/
def getRankForUser (st : LeaderboardState) (userId : String) : Option ℤ :=
  match zRank st userId with
  | none => none
  | some rank => some ((zCard st : ℤ) - (rank : ℤ))

/-- A leaderboard state holding one decoded record for user A with
score 100 submitted at time 5. -/
def storedStateA : LeaderboardState :=
  ⟨[("A", some ⟨100, 5, []⟩)], [("A", toCompositeScore 100 5)]⟩

/-- The state after submitting A = 100 (at time 1) and then B = 200
(at time 2) to an empty leaderboard. -/
def rankExampleState : LeaderboardState :=
  (upsertScore (upsertScore ⟨[], []⟩ "A" 100 1 []).2 "B" 200 2 []).2

/-! ## Helper lemmas -/

/-- The resolved ring tolerance is never negative. -/
lemma getRingEpsN_nonneg (cfg : ScoringConfig) : 0 ≤ getRingEpsN cfg := by
  cases hv : cfg.ringEpsN with
  | none => norm_num [getRingEpsN, hv]
  | some v =>
      simp only [getRingEpsN, hv]
      split_ifs with h
      · exact h
      · norm_num

/-- The JavaScript remainder-based angle normalization agrees with the
mathematical reduction modulo two pi. -/
lemma normAngle_eq (a : ℝ) :
    normAngle0To2Pi a = a - Real.pi * 2 * ⌊a / (Real.pi * 2)⌋ := by
  have hT : (0 : ℝ) < Real.pi * 2 := by positivity
  simp only [normAngle0To2Pi, jsRem, jsTrunc]
  set q := a / (Real.pi * 2) with hq
  have haq : a = Real.pi * 2 * q := by
    rw [hq]; field_simp
  by_cases h0 : 0 ≤ q
  · rw [if_pos h0]
    have hfl : (⌊q⌋ : ℝ) ≤ q := Int.floor_le q
    have hfr0 : 0 ≤ a - Real.pi * 2 * ⌊q⌋ := by nlinarith
    rw [if_neg (not_lt.mpr hfr0)]
  · rw [if_neg h0]
    by_cases hint : q = (⌊q⌋ : ℝ)
    · have hceil : ⌈q⌉ = ⌊q⌋ :=
        le_antisymm (Int.ceil_le.mpr (le_of_eq hint)) (Int.floor_le_ceil q)
      rw [hceil]
      have hz : a - Real.pi * 2 * ⌊q⌋ = 0 := by
        linear_combination haq + Real.pi * 2 * hint
      rw [hz]
      norm_num
    · have hlt : (⌊q⌋ : ℝ) < q := lt_of_le_of_ne (Int.floor_le q) (Ne.symm hint)
      have hceil : ⌈q⌉ = ⌊q⌋ + 1 := by
        have h1 : ⌊q⌋ < ⌈q⌉ := Int.lt_ceil.mpr hlt
        have h2 : ⌈q⌉ ≤ ⌊q⌋ + 1 := Int.ceil_le_floor_add_one q
        omega
      rw [hceil]
      have hfr1 : q - ⌊q⌋ < 1 := by
        have := Int.fract_lt_one q
        simp only [Int.fract] at this
        exact this
      have hneg : a - Real.pi * 2 * ((⌊q⌋ + 1 : ℤ) : ℝ) < 0 := by
        push_cast
        nlinarith
      rw [if_pos hneg]
      push_cast
      ring

/-- Normalizing an integer multiple of two pi gives 0. -/
lemma normAngle_two_pi_int (k : ℤ) : normAngle0To2Pi (Real.pi * 2 * k) = 0 := by
  have hT0 : (Real.pi * 2 : ℝ) ≠ 0 := by positivity
  rw [normAngle_eq, mul_div_cancel_left₀ _ hT0, Int.floor_intCast]
  ring

/-! ## Claims -/

/-- C9: for every config with a positive wedge angle (both directions and
any angle offset), wedgeIndexFromAngle applied to an angle whose
offset-adjusted normalization equals the normalization of startAngle
(so the computed delta is 0) returns wedge index 0. -/
theorem wedgeIndexFromAngle_at_center (cfg : ScoringConfig) (theta : ℝ)
    (hwa : 0 < cfg.wedgeAngle)
    (hc : normAngle0To2Pi (theta + resolvedAngleOffset cfg) =
      normAngle0To2Pi cfg.startAngle) :
    wedgeIndexFromAngle theta cfg = 0 := by
  have hwa0 : cfg.wedgeAngle ≠ 0 := ne_of_gt hwa
  simp only [wedgeIndexFromAngle]
  rw [hc, normAngle_eq cfg.startAngle]
  have h1 : cfg.startAngle -
      (cfg.startAngle - Real.pi * 2 * ⌊cfg.startAngle / (Real.pi * 2)⌋) =
      Real.pi * 2 * (⌊cfg.startAngle / (Real.pi * 2)⌋ : ℤ) := by
    ring
  have h2 : (cfg.startAngle - Real.pi * 2 * ⌊cfg.startAngle / (Real.pi * 2)⌋) -
      cfg.startAngle = Real.pi * 2 * ((-⌊cfg.startAngle / (Real.pi * 2)⌋ : ℤ) : ℝ) := by
    push_cast; ring
  have hhalf : (0 + cfg.wedgeAngle / 2) / cfg.wedgeAngle = 1 / 2 := by
    rw [zero_add]
    field_simp
    ring
  have hfloor : ⌊(1 / 2 : ℝ)⌋ = 0 := by
    rw [Int.floor_eq_zero_iff]
    constructor <;> norm_num
  split
  · rw [h1, normAngle_two_pi_int, hhalf, hfloor]
    decide
  · rw [h2, normAngle_two_pi_int, hhalf, hfloor]
    decide

/-- C9 witness: on the default board config (startAngle at the top of the
board, direction "cw", zero offset), the angle pi over 2 maps to wedge
index 0. -/
theorem wedgeIndexFromAngle_at_center_witness :
    wedgeIndexFromAngle (Real.pi / 2) defaultScoringConfig = 0 := by
  apply wedgeIndexFromAngle_at_center
  · show (0 : ℝ) < Real.pi * 2 / 20
    positivity
  · show normAngle0To2Pi (Real.pi / 2 + resolvedAngleOffset defaultScoringConfig) =
      normAngle0To2Pi defaultScoringConfig.startAngle
    have h : Real.pi / 2 + resolvedAngleOffset defaultScoringConfig =
        defaultScoringConfig.startAngle := by
      simp [resolvedAngleOffset, defaultScoringConfig]
    rw [h]

/-- C4 counterexample: with MULTIPLIER equal to ten to the twelfth, the
submission timestamp can perturb the ordering between different integer
scores: score 2 submitted at epoch time 2 times ten to the twelfth does
not rank above score 1 submitted at time 0. -/
theorem toCompositeScore_counterexample :
    ¬ (toCompositeScore 1 0 < toCompositeScore 2 (2 * 10 ^ 12)) := by
  norm_num [toCompositeScore, scoreMultiplier]

/-- C4 (amended): compositeScore is score times ten to the twelfth minus
submittedAt; for integer scores s1 greater than s2 the composite of s1 is
strictly larger whenever the timestamp difference t1 minus t2 is below
(s1 - s2) times the multiplier (in particular whenever the two timestamps
are less than ten to the twelfth milliseconds apart), and for equal scores
the smaller timestamp gives the strictly larger composite. -/
theorem toCompositeScore_order (s1 s2 t1 t2 : ℤ)
    (hs : s2 < s1)
    (ht : t1 - t2 < (s1 - s2) * scoreMultiplier) :
    scoreMultiplier = 10 ^ 12 ∧
    toCompositeScore s1 t1 = s1 * 10 ^ 12 - t1 ∧
    toCompositeScore s2 t2 < toCompositeScore s1 t1 ∧
    (∀ s t t' : ℤ, t < t' → toCompositeScore s t' < toCompositeScore s t) := by
  refine ⟨by norm_num [scoreMultiplier], by rw [toCompositeScore, scoreMultiplier]; norm_num,
    ?_, ?_⟩
  · unfold toCompositeScore
    nlinarith [ht]
  · intro s t t' h
    unfold toCompositeScore
    linarith

/-- C4 witness: score 2 at time 5 outranks score 1 at time 3, and for the
fixed score 7 the earlier submission time 1 outranks time 2. -/
theorem toCompositeScore_order_witness :
    toCompositeScore 1 3 < toCompositeScore 2 5 ∧
    toCompositeScore 7 2 < toCompositeScore 7 1 := by
  have h := toCompositeScore_order 2 1 5 3 (by norm_num)
    (by norm_num [scoreMultiplier])
  exact ⟨h.2.2.1, h.2.2.2 7 1 2 (by norm_num)⟩

/-- C3: when the stored record for a user decodes successfully and its
score is at least the new score, upsertScore returns the existing record
and leaves the whole store unchanged (no metadata write, no sorted-set
write). -/
theorem upsertScore_noop (st : LeaderboardState) (userId : String) (score now : ℤ)
    (md : List (String × String)) (ex : StoredLeaderboardRecord)
    (hex : hGetDecoded st userId = some ex) (hle : score ≤ ex.score) :
    upsertScore st userId score now md = (ex, st) := by
  simp only [upsertScore, hex]
  rw [if_pos hle]

/-- C3 witness: submitting 50 after a stored 100 for user A leaves the
record and the store unchanged. -/
theorem upsertScore_noop_witness :
    upsertScore storedStateA "A" 50 7 [] = (⟨100, 5, []⟩, storedStateA) :=
  upsertScore_noop storedStateA "A" 50 7 [] ⟨100, 5, []⟩ (by rfl) (by norm_num)

/-- C7 counterexample: beginHold on a state that is already holding is not
a no-op: with holdTime one half and a shrunk radius 0.3, it rewinds
holdTime to 0 and restores the radius to maxRadius 0.75. -/
theorem beginHold_not_noop :
    beginHold defaultAimOpts midHoldState ≠ midHoldState := by
  intro h
  have h2 := congrArg AimState.radius h
  simp only [beginHold, defaultAimOpts, midHoldState] at h2
  norm_num at h2

/-- C7 (amended): for every aim state with holding true, beginHold
restarts the hold rather than leaving the state unchanged: it keeps
holding true, resets holdTime to 0 and the radius to maxRadius, and leaves
center, time and enabled untouched; being a total function it throws no
exception. (In the running program the pointer-down handler returns early
when a hold is in progress, so this restart is never triggered.) -/
theorem beginHold_restart (opts : AimOpts) (st : AimState) (h : st.holding = true) :
    (beginHold opts st).holding = true ∧
    (beginHold opts st).holdTime = 0 ∧
    (beginHold opts st).radius = opts.maxRadius ∧
    (beginHold opts st).centerX = st.centerX ∧
    (beginHold opts st).centerY = st.centerY ∧
    (beginHold opts st).time = st.time ∧
    (beginHold opts st).enabled = st.enabled :=
  ⟨rfl, rfl, rfl, rfl, rfl, rfl, rfl⟩

/-- C7 witness: the restart characterization applied to the concrete
mid-hold state. -/
theorem beginHold_restart_witness :
    (beginHold defaultAimOpts midHoldState).radius = defaultAimOpts.maxRadius ∧
    (beginHold defaultAimOpts midHoldState).time = midHoldState.time :=
  ⟨(beginHold_restart defaultAimOpts midHoldState rfl).2.2.1,
    (beginHold_restart defaultAimOpts midHoldState rfl).2.2.2.2.2.1⟩

/-- C1: for configs whose ring ratios satisfy the data-model ordering,
the ring classifier agrees with the spec-side precedence chain (MISS,
DBULL, SBULL, DOUBLE, TRIPLE, SINGLE, first match wins), and in
particular a hit within tolerance of both the outer rim and the double
band (doubleOuter equal to outer, rNorm just beyond outer but within
epsilon, and beyond the bull tolerance) is classified DOUBLE, not MISS. -/
theorem ringPrecedence (cfg : ScoringConfig) (rNorm : ℝ)
    (hdb : cfg.ringRatios.dbullOuter < cfg.ringRatios.bullOuter)
    (hdi : cfg.ringRatios.doubleInner ≤ cfg.ringRatios.doubleOuter)
    (hEq : cfg.ringRatios.doubleOuter = cfg.ringRatios.outer)
    (hBull : cfg.ringRatios.bullOuter + getRingEpsN cfg < rNorm)
    (hLo : cfg.ringRatios.outer < rNorm)
    (hHi : rNorm ≤ cfg.ringRatios.outer + getRingEpsN cfg) :
    (∀ r : ℝ, ringFromRadiusRatioFn r cfg = ringOrderSpec r cfg) ∧
    ringFromRadiusRatioFn rNorm cfg = ⟨Ring.DOUBLE, 2⟩ := by
  have heps := getRingEpsN_nonneg cfg
  constructor
  · intro r
    rfl
  · unfold ringFromRadiusRatioFn ringFromRadiusRatioWithEps
    rw [if_neg (not_lt.mpr hHi), if_neg (not_le.mpr (by linarith)),
      if_neg (not_le.mpr (by linarith)), if_pos ⟨by linarith, by linarith⟩]

/-- C1 witness: on the default config (outer 1, epsilon 0.01), the
normalized radius 1.005 lands beyond the rim but within tolerance and is
classified as a DOUBLE. -/
theorem ringPrecedence_witness :
    ringFromRadiusRatioFn 1.005 defaultScoringConfig = ⟨Ring.DOUBLE, 2⟩ :=
  (ringPrecedence defaultScoringConfig 1.005
    (by norm_num [defaultScoringConfig])
    (by norm_num [defaultScoringConfig])
    (by norm_num [defaultScoringConfig])
    (by norm_num [defaultScoringConfig, getRingEpsN])
    (by norm_num [defaultScoringConfig])
    (by norm_num [defaultScoringConfig, getRingEpsN])).2

/-- C10: when ringEpsN is absent or negative (the embedding of the
JavaScript check for a finite nonnegative number failing), the scoring
engine uses the default tolerance 0.01, which is nonzero, as the epsilon
of every ring-band comparison. -/
theorem ringEpsDefault (cfg : ScoringConfig)
    (h : cfg.ringEpsN = none ∨ ∃ v, cfg.ringEpsN = some v ∧ v < 0) :
    getRingEpsN cfg = 0.01 ∧ (0.01 : ℝ) ≠ 0 ∧
    ∀ r : ℝ, ringFromRadiusRatioFn r cfg = ringFromRadiusRatioWithEps r cfg.ringRatios 0.01 := by
  have hEps : getRingEpsN cfg = 0.01 := by
    rcases h with h | ⟨v, hv, hneg⟩
    · simp [getRingEpsN, h]
    · simp [getRingEpsN, hv, not_le.mpr hneg]
  refine ⟨hEps, by norm_num, ?_⟩
  intro r
  rw [ringFromRadiusRatioFn, hEps]

/-- C10 witness: a config whose ringEpsN holds the negative number -1
resolves to the default tolerance 0.01 and classifies with it. -/
theorem ringEpsDefault_witness :
    getRingEpsN negEpsConfig = 0.01 ∧
    ringFromRadiusRatioFn 0.5 negEpsConfig =
      ringFromRadiusRatioWithEps 0.5 negEpsConfig.ringRatios 0.01 :=
  ⟨(ringEpsDefault negEpsConfig (Or.inr ⟨-1, rfl, by norm_num⟩)).1,
    (ringEpsDefault negEpsConfig (Or.inr ⟨-1, rfl, by norm_num⟩)).2.2 0.5⟩

/-- A coordinate whose normalized radius is within the double-bull ratio
scores as a double bull: the full result object. -/
lemma scoreFromBoardXY_dbull_eq (x y : ℝ) (cfg : ScoringConfig) (b : ℝ)
    (hlen : cfg.numbers.length = 20)
    (hbr : cfg.boardRadius = some b) (hb : 0 < b)
    (hord : cfg.ringRatios.dbullOuter ≤ cfg.ringRatios.outer)
    (hr : Real.sqrt (x * x + y * y) / b ≤ cfg.ringRatios.dbullOuter) :
    scoreFromBoardXY x y cfg =
      ⟨resolvedDbullPoints cfg, "DBULL", none, none, 0, Ring.DBULL, 0,
        Real.sqrt (x * x + y * y), Real.sqrt (x * x + y * y) / b⟩ := by
  have heps := getRingEpsN_nonneg cfg
  have hrn : rNormOf x y cfg = Real.sqrt (x * x + y * y) / b := by
    simp [rNormOf, hbr, hb]
  have hring : ringFromRadiusRatioFn (Real.sqrt (x * x + y * y) / b) cfg =
      ⟨Ring.DBULL, 0⟩ := by
    unfold ringFromRadiusRatioFn ringFromRadiusRatioWithEps
    rw [if_neg (not_lt.mpr (by linarith)), if_pos (by linarith)]
  unfold scoreFromBoardXY
  rw [if_neg (fun hc => hc hlen)]
  simp only [hrn, hring]

/-- C5: for every coordinate whose normalized radius is at most the
dbullOuter ratio (on a config with a positive board radius, 20 numbers and
the data-model ratio ordering), the result ring is DBULL and the points
are the configured dbull points; in particular the exact center of the
default board scores 50 points with label DBULL. -/
theorem scoreFromBoardXY_dbull (x y : ℝ) (cfg : ScoringConfig) (b pd : ℝ)
    (hlen : cfg.numbers.length = 20)
    (hbr : cfg.boardRadius = some b) (hb : 0 < b)
    (hpd : cfg.pointsDbull = some pd)
    (hord : cfg.ringRatios.dbullOuter ≤ cfg.ringRatios.outer)
    (hr : Real.sqrt (x * x + y * y) / b ≤ cfg.ringRatios.dbullOuter) :
    (scoreFromBoardXY x y cfg).ring = Ring.DBULL ∧
    (scoreFromBoardXY x y cfg).points = pd ∧
    scoreFromBoardXY 0 0 defaultScoringConfig =
      ⟨50, "DBULL", none, none, 0, Ring.DBULL, 0, 0, 0⟩ := by
  have hmain := scoreFromBoardXY_dbull_eq x y cfg b hlen hbr hb hord hr
  have h00 : Real.sqrt ((0 : ℝ) * 0 + 0 * 0) = 0 := by
    norm_num
  have hcenter := scoreFromBoardXY_dbull_eq 0 0 defaultScoringConfig 2.05
    (by norm_num [defaultScoringConfig])
    rfl (by norm_num)
    (by norm_num [defaultScoringConfig])
    (by rw [h00]; norm_num [defaultScoringConfig])
  refine ⟨by rw [hmain], by rw [hmain]; simp [resolvedDbullPoints, hpd], ?_⟩
  rw [hcenter, h00]
  norm_num [resolvedDbullPoints, defaultScoringConfig]

/-- C5 witness: the DBULL classification applied at the exact center of
the default board. -/
theorem scoreFromBoardXY_dbull_witness :
    (scoreFromBoardXY 0 0 defaultScoringConfig).ring = Ring.DBULL ∧
    (scoreFromBoardXY 0 0 defaultScoringConfig).points = 50 :=
  have h := scoreFromBoardXY_dbull 0 0 defaultScoringConfig 2.05 50
    (by norm_num [defaultScoringConfig])
    rfl (by norm_num)
    rfl
    (by norm_num [defaultScoringConfig])
    (by rw [show Real.sqrt ((0 : ℝ) * 0 + 0 * 0) = 0 by norm_num]
        norm_num [defaultScoringConfig])
  ⟨h.1, h.2.1⟩

/-- C6: every sample returned by releaseAndSampleHit lies inside the disk
of the returned (final, shrunk) radius around the returned center, for
any aim state and any unit-interval draw u2 (the angle draw u1 is
unconstrained). -/
theorem releaseSample_in_disk (opts : AimOpts) (st : AimState) (u1 u2 : ℝ)
    (h0 : 0 ≤ u2) (h1 : u2 ≤ 1) :
    ((releaseAndSampleHit opts st u1 u2).1.hitX -
        (releaseAndSampleHit opts st u1 u2).1.centerX) ^ 2 +
      ((releaseAndSampleHit opts st u1 u2).1.hitY -
        (releaseAndSampleHit opts st u1 u2).1.centerY) ^ 2 ≤
      (releaseAndSampleHit opts st u1 u2).1.radius ^ 2 := by
  simp only [releaseAndSampleHit]
  have g1 : st.centerX + Real.cos (u1 * Real.pi * 2) * (Real.sqrt u2 * st.radius) -
      st.centerX = Real.cos (u1 * Real.pi * 2) * (Real.sqrt u2 * st.radius) := by ring
  have g2 : st.centerY + Real.sin (u1 * Real.pi * 2) * (Real.sqrt u2 * st.radius) -
      st.centerY = Real.sin (u1 * Real.pi * 2) * (Real.sqrt u2 * st.radius) := by ring
  rw [g1, g2]
  have e1 : Real.cos (u1 * Real.pi * 2) ^ 2 + Real.sin (u1 * Real.pi * 2) ^ 2 = 1 :=
    Real.cos_sq_add_sin_sq (u1 * Real.pi * 2)
  have e2 : Real.sqrt u2 ^ 2 = u2 := Real.sq_sqrt h0
  nlinarith [sq_nonneg st.radius, sq_nonneg (Real.sqrt u2 * st.radius)]

/-- C6 witness: the in-disk bound applied to a concrete mid-hold state
with draws u1 = 0 and u2 = 0. -/
theorem releaseSample_in_disk_witness :
    ((releaseAndSampleHit defaultAimOpts midHoldState 0 0).1.hitX -
        (releaseAndSampleHit defaultAimOpts midHoldState 0 0).1.centerX) ^ 2 +
      ((releaseAndSampleHit defaultAimOpts midHoldState 0 0).1.hitY -
        (releaseAndSampleHit defaultAimOpts midHoldState 0 0).1.centerY) ^ 2 ≤
      (releaseAndSampleHit defaultAimOpts midHoldState 0 0).1.radius ^ 2 :=
  releaseSample_in_disk defaultAimOpts midHoldState 0 0 (by norm_num) (by norm_num)

/-- Registration always increments the dart counter by one. -/
lemma registerThrowScore_darts (st : RoundState) (sr : ThrowInput) :
    (registerThrowScore st sr).dartsThrown = st.dartsThrown + 1 := by
  simp only [registerThrowScore, endRound]
  split_ifs <;> rfl

/-- Registration ends the round exactly when the incremented dart counter
reaches the limit. -/
lemma registerThrowScore_active (st : RoundState) (sr : ThrowInput) :
    (registerThrowScore st sr).roundActive =
      if maxDartsPerRound ≤ st.dartsThrown + 1 then false else st.roundActive := by
  simp only [registerThrowScore, endRound]
  split_ifs <;> rfl

/-- Round states reachable through the pointer-up registration path keep
dartsThrown within the limit and, while the round is active, strictly
below it. -/
lemma roundInvariant (st : RoundState) (h : ReachableRound st) :
    st.dartsThrown ≤ maxDartsPerRound ∧
      (st.roundActive = true → st.dartsThrown < maxDartsPerRound) := by
  induction h with
  | reset st0 => simp [resetRound, maxDartsPerRound]
  | step st0 sr _hst ih =>
      obtain ⟨ih1, ih2⟩ := ih
      by_cases hact : st0.roundActive = true
      · have hlt := ih2 hact
        simp only [registerThrowViaPointerUp, hact, if_true]
        constructor
        · rw [registerThrowScore_darts]
          omega
        · intro hA
          rw [registerThrowScore_active] at hA
          rw [registerThrowScore_darts]
          by_cases hfull : maxDartsPerRound ≤ st0.dartsThrown + 1
          · rw [if_pos hfull] at hA
            exact absurd hA (by simp)
          · omega
      · simp only [registerThrowViaPointerUp, hact, if_false]
        exact ⟨ih1, ih2⟩

/-- Folding the guarded registration over exactly the number of throws
that completes the round yields dartsThrown at the limit and an inactive
round. -/
lemma foldRegister_completes (rs : List ThrowInput) :
    ∀ st : RoundState, st.roundActive = true →
      st.dartsThrown < maxDartsPerRound →
      st.dartsThrown + rs.length = maxDartsPerRound →
      (rs.foldl registerThrowViaPointerUp st).dartsThrown = maxDartsPerRound ∧
      (rs.foldl registerThrowViaPointerUp st).roundActive = false := by
  induction rs with
  | nil =>
      intro st _hact hlt heq
      simp only [List.length_nil, Nat.add_zero] at heq
      omega
  | cons r rest ih =>
      intro st hact hlt heq
      simp only [List.foldl_cons, List.length_cons] at heq ⊢
      have hstep : registerThrowViaPointerUp st r = registerThrowScore st r := by
        simp [registerThrowViaPointerUp, hact]
      rw [hstep]
      by_cases hfull : maxDartsPerRound ≤ st.dartsThrown + 1
      · have hrest : rest.length = 0 := by omega
        have hnil : rest = [] := List.length_eq_zero.mp hrest
        subst hnil
        simp only [List.foldl_nil]
        constructor
        · rw [registerThrowScore_darts]
          omega
        · rw [registerThrowScore_active, if_pos hfull]
      · refine ih _ ?_ ?_ ?_
        · rw [registerThrowScore_active, if_neg hfull]
          exact hact
        · rw [registerThrowScore_darts]
          omega
        · rw [registerThrowScore_darts]
          omega

/-- C2: maxDarts is 10; starting from a fresh round, after exactly 10
registrations through the pointer-up path dartsThrown is 10 and the round
is complete (roundActive false); an 11th registration attempt leaves
totalScore unchanged (the pointer-up handler returns early once the round
is inactive); and every reachable round state keeps dartsThrown between 0
and maxDarts. -/
theorem roundCompletion (st0 : RoundState) (rs : List ThrowInput) (extra : ThrowInput)
    (hlen : rs.length = maxDartsPerRound) :
    maxDartsPerRound = 10 ∧
    (rs.foldl registerThrowViaPointerUp (resetRound st0)).dartsThrown = maxDartsPerRound ∧
    (rs.foldl registerThrowViaPointerUp (resetRound st0)).roundActive = false ∧
    (registerThrowViaPointerUp (rs.foldl registerThrowViaPointerUp (resetRound st0))
        extra).totalScore
      = (rs.foldl registerThrowViaPointerUp (resetRound st0)).totalScore ∧
    (∀ st : RoundState, ReachableRound st →
      0 ≤ st.dartsThrown ∧ st.dartsThrown ≤ maxDartsPerRound) := by
  have hmain := foldRegister_completes rs (resetRound st0) rfl
    (by simp [resetRound, maxDartsPerRound])
    (by simp [resetRound, hlen])
  refine ⟨rfl, hmain.1, hmain.2, ?_, ?_⟩
  · simp [registerThrowViaPointerUp, hmain.2]
  · intro st h
    exact ⟨Nat.zero_le _, (roundInvariant st h).1⟩

/-- C2 witness: ten sample throws from a fresh round complete it, and one
more registration attempt leaves the total unchanged. -/
theorem roundCompletion_witness :
    ((List.replicate 10 sampleThrow).foldl registerThrowViaPointerUp
        (resetRound initialRoundState)).dartsThrown = maxDartsPerRound ∧
    ((List.replicate 10 sampleThrow).foldl registerThrowViaPointerUp
        (resetRound initialRoundState)).roundActive = false ∧
    (registerThrowViaPointerUp
        ((List.replicate 10 sampleThrow).foldl registerThrowViaPointerUp
          (resetRound initialRoundState)) sampleThrow).totalScore
      = ((List.replicate 10 sampleThrow).foldl registerThrowViaPointerUp
          (resetRound initialRoundState)).totalScore := by
  have h := roundCompletion initialRoundState (List.replicate 10 sampleThrow) sampleThrow
    (by simp [maxDartsPerRound])
  exact ⟨h.2.1, h.2.2.1, h.2.2.2.1⟩

/-- C8: getRankForUser is null for a user with no sorted-set entry,
returns the cardinality minus the ascending rank otherwise (a 1-based
descending rank), and on the concrete store holding A = 100 then B = 200
it ranks A second. -/
theorem getRankForUser_rank (st : LeaderboardState) (userId : String) :
    (lookupField st.zset userId = none → getRankForUser st userId = none) ∧
    (∀ a : ℕ, zRank st userId = some a →
      getRankForUser st userId = some ((zCard st : ℤ) - (a : ℤ))) ∧
    getRankForUser rankExampleState "A" = some 2 := by
  refine ⟨?_, ?_, ?_⟩
  · intro h
    simp [getRankForUser, zRank, h]
  · intro a ha
    simp [getRankForUser, ha]
  · decide

/-- C8 witness: an empty store ranks nobody, and the concrete two-user
store ranks A second. -/
theorem getRankForUser_rank_witness :
    getRankForUser ⟨[], []⟩ "X" = none ∧
    getRankForUser rankExampleState "A" = some 2 :=
  ⟨(getRankForUser_rank ⟨[], []⟩ "X").1 rfl,
    (getRankForUser_rank ⟨[], []⟩ "X").2.2⟩

end DailyDarts
